import Mathlib

/-!
Shallow embedding of the lead-enrichment pipeline of `src/lib/runEnrichment.ts`
(and the email validation of `src/app/api/enrich-leads/route.ts`), together with
theorems settling the specification's claims about it.

Strings are modelled as `List Char` at the byte/character level; the network is
modelled by explicit chunk lists and outcome oracles.  All definitions are
executable and translated directly from the TypeScript source.
-/

namespace LeadEnrichment

/-- Whitespace class used by JavaScript `trim`, `\s` and string splitting:
space, tab, newline, carriage return, vertical tab, form feed. -/
def jsWhitespaceB (c : Char) : Bool :=
  c = ' ' || c = '\t' || c = '\n' || c = '\r' || c = '\x0b' || c = '\x0c'

/-- Model of JavaScript `String.prototype.trim`: drop whitespace from both ends. -/
def jsTrim (l : List Char) : List Char :=
  ((l.dropWhile jsWhitespaceB).reverse.dropWhile jsWhitespaceB).reverse

/-- Drop leading whitespace (used by the JSON parser between tokens). -/
def skipWs (l : List Char) : List Char := l.dropWhile jsWhitespaceB

/-- Model of JavaScript `String.prototype.split(sep)` for a one-character
separator: splits into parts, keeping empty parts (e.g. a trailing separator
yields a trailing empty part), as `"a\nb\n".split('\n') = ["a","b",""]`. -/
def splitOnCh (sep : Char) : List Char → List (List Char)
  | [] => [[]]
  | c :: rest =>
    match splitOnCh sep rest with
    | [] => [[c]]
    | h :: t => if c = sep then [] :: h :: t else (c :: h) :: t

/-- First index at which `pat` occurs as a contiguous substring, if any
(leftmost match of a literal pattern). -/
def findSub (pat : List Char) : List Char → Option Nat
  | [] => if pat.isEmpty then some 0 else none
  | l@(_ :: rest) =>
    if pat.isPrefixOf l then some 0 else (findSub pat rest).map (· + 1)

/-- First index of character `c`, if any. -/
def findCh (c : Char) : List Char → Option Nat
  | [] => none
  | x :: rest => if x = c then some 0 else (findCh c rest).map (· + 1)

/-! ### A model of `JSON.parse` on flat objects

`JSON.parse` is applied by the source to two kinds of text: stream records such
as `{"type":"message","data":"Hel"}` and the brace-delimited substring cut out
of the extraction model's output.  Both are flat JSON objects whose values are
strings, `null`, booleans or integers, so the model parses exactly that
fragment (string escapes `\" \\ \/ \n \t \r \b \f` supported; nested
objects/arrays, fractional numbers and `\u` escapes are parse failures). -/

/-- Scalar JSON values occurring in the modelled fragment. -/
inductive JsScalar where
  | str (s : List Char)
  | num (n : Int)
  | bool (b : Bool)
  | null
deriving DecidableEq, Repr

/-- Decoding of a JSON string escape character. -/
def escMap (c : Char) : Option Char :=
  if c = '"' then some '"'
  else if c = '\\' then some '\\'
  else if c = '/' then some '/'
  else if c = 'n' then some '\n'
  else if c = 't' then some '\t'
  else if c = 'r' then some '\r'
  else if c = 'b' then some '\x08'
  else if c = 'f' then some '\x0c'
  else none

/-- Parse the body of a JSON string (after the opening quote), returning the
decoded characters and the remainder after the closing quote. -/
def parseJsonStringBody : List Char → Option (List Char × List Char)
  | [] => none
  | '"' :: rest => some ([], rest)
  | '\\' :: rest =>
    match rest with
    | [] => none
    | c :: rest' =>
      match escMap c, parseJsonStringBody rest' with
      | some e, some (s, r) => some (e :: s, r)
      | _, _ => none
  | c :: rest =>
    match parseJsonStringBody rest with
    | some (s, r) => some (c :: s, r)
    | none => none

/-- Numeric value of a digit run. -/
def digitsToNat (ds : List Char) : Nat :=
  ds.foldl (fun n c => 10 * n + (c.toNat - '0'.toNat)) 0

/-- Parse one scalar JSON value, returning it and the remaining input. -/
def parseScalar (l : List Char) : Option (JsScalar × List Char) :=
  match l with
  | '"' :: rest =>
    match parseJsonStringBody rest with
    | some (s, r) => some (.str s, r)
    | none => none
  | _ =>
    if ("null".data).isPrefixOf l then some (.null, l.drop 4)
    else if ("true".data).isPrefixOf l then some (.bool true, l.drop 4)
    else if ("false".data).isPrefixOf l then some (.bool false, l.drop 5)
    else
      let (neg, l') := match l with
        | '-' :: r => (true, r)
        | _ => (false, l)
      let ds := l'.takeWhile Char.isDigit
      if ds.isEmpty then none
      else
        let n : Int := (digitsToNat ds : Int)
        some (.num (if neg then -n else n), l'.drop ds.length)

/-- Parse one `"key" : value` member. -/
def parseMember (l : List Char) : Option ((List Char × JsScalar) × List Char) :=
  match skipWs l with
  | '"' :: sb =>
    match parseJsonStringBody sb with
    | some (key, r1) =>
      match skipWs r1 with
      | ':' :: r2 =>
        match parseScalar (skipWs r2) with
        | some (v, r3) => some ((key, v), r3)
        | none => none
      | _ => none
    | none => none
  | _ => none

/-- Parse a comma-separated member list up to the closing brace (fuel-indexed
by the input length to make termination evident). -/
def parseMembers : Nat → List Char → Option (List (List Char × JsScalar) × List Char)
  | 0, _ => none
  | Nat.succ fuel, l =>
    match parseMember l with
    | none => none
    | some (m, r) =>
      match skipWs r with
      | ',' :: r2 =>
        match parseMembers fuel r2 with
        | some (ms, r3) => some (m :: ms, r3)
        | none => none
      | '}' :: r2 => some ([m], r2)
      | _ => none

/-- Model of `JSON.parse` on a flat object: the whole input (modulo surrounding
whitespace) must be one `{ ... }` object of scalar members; `none` models a
thrown `SyntaxError`. -/
def parseJsonObj (l : List Char) : Option (List (List Char × JsScalar)) :=
  match skipWs l with
  | '{' :: rest =>
    match skipWs rest with
    | '}' :: tail => if (skipWs tail).isEmpty then some [] else none
    | body =>
      match parseMembers (body.length + 1) body with
      | some (ms, tail) => if (skipWs tail).isEmpty then some ms else none
      | none => none
  | _ => none

/-- Property access `obj[k]` on a parsed JSON object (later duplicate keys win,
as in JavaScript object construction). -/
def getField (fields : List (List Char × JsScalar)) (k : List Char) : Option JsScalar :=
  (fields.reverse.find? (fun p => p.1 = k)).map (·.2)

/-- JavaScript string coercion of a field value as it happens in
`receivedMessage += data.data` (an absent property is `undefined`). -/
def jsFieldToString (v : Option JsScalar) : List Char :=
  match v with
  | some (.str s) => s
  | some (.num n) => (toString n).data
  | some (.bool b) => if b then "true".data else "false".data
  | some .null => "null".data
  | none => "undefined".data

/-! ### StreamingMessageClient: the stream-reading loop of `sendMessage`

`sendMessage` (runEnrichment.ts lines 426-465) appends each network chunk to
`partialChunk`, splits the buffer on newlines and, inside a single `try`,
parses every line in order: an `error`-typed record makes it `throw`, a
`message` record appends its `data` to `receivedMessage`, a `messageEnd`
record returns `receivedMessage.trim()`.  The `catch` swallows ANY exception
of that block (a `JSON.parse` failure as well as the deliberately thrown
error) and continues reading WITHOUT clearing the buffer; only a pass that
processes every line clears `partialChunk`.  At end of input it returns
`receivedMessage.trim()`. -/

/-- Outcome of one pass of the inner `for (const msg of messages)` loop,
carrying the `receivedMessage` accumulated so far. -/
inductive PassOut where
  | ret (received : List Char)
  | caught (received : List Char)
  | completed (received : List Char)
deriving DecidableEq, Repr

/-- One pass over the split buffer lines, exactly mirroring the inner loop of
`sendMessage` including the `throw new Error(data.data)` being caught by the
same surrounding `try/catch`. -/
def runPass : List (List Char) → List Char → PassOut
  | [], received => .completed received
  | msg :: rest, received =>
    if (jsTrim msg).isEmpty then runPass rest received
    else
      match parseJsonObj msg with
      | none => .caught received
      | some fields =>
        let ty := getField fields "type".data
        if ty = some (.str "error".data) then .caught received
        else
          let received' :=
            if ty = some (.str "message".data) then
              received ++ jsFieldToString (getField fields "data".data)
            else received
          if ty = some (.str "messageEnd".data) then .ret received'
          else runPass rest received'

/-- The outer `while (true)` read loop of `sendMessage`: `buf` is
`partialChunk`, `received` is `receivedMessage`; each list element of `chunks`
is one `reader.read()` delivery. -/
def processChunks : List (List Char) → List Char → List Char → List Char
  | [], _, received => jsTrim received
  | c :: rest, buf, received =>
    let buf' := buf ++ c
    match runPass (splitOnCh '\n' buf') received with
    | .ret r => jsTrim r
    | .caught r => processChunks rest buf' r
    | .completed r => processChunks rest [] r

/-- The value `sendMessage` resolves with, as a function of the chunk division
of the response stream.  The modelled loop is total: no exception escapes it
(the `catch` absorbs every throw), so the result type is a plain string. -/
def sendMessageStream (chunks : List (List Char)) : List Char :=
  processChunks chunks [] []

/-! ### LeadScorer: the response parse of `scoreLeadWithGemini`

`scoreLeadWithGemini` (lines 144-158) extracts the score with
`text.match(/Total Score:\s*(\d+(\.\d+)?)/)` and `parseFloat`, defaulting to
`0` when there is no match, and sets `reason` to `text.trim()` exactly when
`text.match(/Revenue Score:.*(?:\n.*?)+Reason:\s*([\s\S]*)/)` matches, else
`'N/A'`.  Both `match` calls and `parseFloat` are total, so the `catch`
branch (`'Parse failed'`) is unreachable; the model is a total function. -/

/-- Leftmost match of `/Total Score:\s*(\d+(\.\d+)?)/`: scan for an occurrence
of the literal `Total Score:` that, after greedily skipping whitespace, is
followed by at least one digit; return the integer digits and the optional
fractional digits of the capture.  (Backtracking inside `\s*` can never
succeed where the greedy skip fails, since a whitespace character is not a
digit, so the engine moves to the next literal occurrence.) -/
def scanTotalScore : List Char → Option (List Char × List Char)
  | [] => none
  | l@(_ :: rest) =>
    if ("Total Score:".data).isPrefixOf l then
      let after := skipWs (l.drop 12)
      let ds := after.takeWhile Char.isDigit
      if ds.isEmpty then scanTotalScore rest
      else
        match after.drop ds.length with
        | '.' :: r2 =>
          let fs := r2.takeWhile Char.isDigit
          if fs.isEmpty then some (ds, []) else some (ds, fs)
        | _ => some (ds, [])
    else scanTotalScore rest

/-- The numeric score of `scoreLeadWithGemini`:
`score = scoreMatch ? parseFloat(scoreMatch[1]) : 0`, with the decimal literal
of the capture modelled exactly as a rational. -/
def parsedScore (text : List Char) : ℚ :=
  match scanTotalScore text with
  | none => 0
  | some (ds, fs) =>
    if fs.isEmpty then (digitsToNat ds : ℚ)
    else (digitsToNat ds : ℚ) + (digitsToNat fs : ℚ) / (10 : ℚ) ^ fs.length

/-- Whether `/Revenue Score:.*(?:\n.*?)+Reason:\s*([\s\S]*)/` matches: there is
an occurrence of `Revenue Score:` followed (beyond its 14 characters) by a
newline, with an occurrence of `Reason:` somewhere after that newline.  Since
the condition only shrinks for later occurrences, testing the first
occurrence of each literal in turn decides the regex. -/
def hasFullReason (text : List Char) : Bool :=
  match findSub "Revenue Score:".data text with
  | none => false
  | some i =>
    let after := text.drop (i + 14)
    match findCh '\n' after with
    | none => false
    | some k => (findSub "Reason:".data (after.drop (k + 1))).isSome

/-- The `(reason, score)` pair produced by `scoreLeadWithGemini`'s parse of the
model response text. -/
def scoreLeadParse (text : List Char) : ℚ × List Char :=
  (parsedScore text, if hasFullReason text then jsTrim text else "N/A".data)

/-! ### FieldExtractor: the response parse of `extractCrmLeadFieldsWithLLM`

`extractCrmLeadFieldsWithLLM` (lines 203-213) takes the first match of the
non-greedy `/\{[\s\S]*?\}/` — the substring from the first `{` to the first
`}` after it — and `JSON.parse`s it, returning `{}` when there is no match or
when parsing throws. -/

/-- Leftmost-shortest match of `/\{[\s\S]*?\}/`: the substring from the first
`{` through the first `}` after it.  (If the first `{` has no `}` after it, no
later starting position can have one either, so there is no match at all.) -/
def firstBraceSub (text : List Char) : Option (List Char) :=
  match findCh '{' text with
  | none => none
  | some i =>
    let rest := text.drop (i + 1)
    match findCh '}' rest with
    | none => none
    | some j => some ('{' :: (rest.take j ++ ['}']))

/-- The field mapping returned by `extractCrmLeadFieldsWithLLM` as a function
of the model response text: parse the first brace-delimited substring as JSON,
returning the empty mapping on no match or parse failure (the function never
throws past this boundary). -/
def extractCrmFields (text : List Char) : List (List Char × JsScalar) :=
  match firstBraceSub text with
  | none => []
  | some sub => (parseJsonObj sub).getD []

/-! ### QuestionPlanner and EnrichmentSession -/

/-- One question/answer pair (interface `EnrichmentResult`). -/
structure EnrichmentResult where
  question : String
  answer : String
deriving DecidableEq, Repr

/-- The fixed question list of `generateEnrichmentQuestions` (lines 470-487),
parameterized by company and full domain. -/
def generateEnrichmentQuestions (company : String) (fullDomain : String) : List String :=
  [s!"What does {company} company do? Please give a short description in two lines.",
   s!"What is the website of the company with the domain {fullDomain}?",
   s!"What are the revenue figures for the company with the domain {fullDomain}? Only include results related to this entity and list each figure along with the source name.",
   s!"What is the employee size of {company} company? Please reply with only the number of employees in two short sentences, without additional explanation.",
   s!"How many years has {company} company been in business? Please reply with only the number of years in two short sentences, without additional explanation.",
   s!"What is the latest funding news for {company} company? Please reply with only the latest funding amount and date in two short sentences in bullet points, without additional explanation.",
   s!"Is {company} in the Fortune 500 list? Please respond with a yes or no and one short supporting detail.",
   s!"Is {company} in the Fortune 100 list? Please respond with a yes or no and one short supporting detail.",
   s!"Who are the clients of {company}? List major clients or industries they serve.",
   s!"What is the industry classification of {company}?",
   s!"What is the LinkedIn profile link of the company named {company}? Return only the link."]

/-- Observable steps of the per-question loop: issuing a question to the chat
backend, and the `setTimeout(resolve, ms)` pacing sleep. -/
inductive SessEvent where
  | ask (q : String)
  | delay (ms : Nat)
deriving DecidableEq, Repr

/-- Whether an `Except` outcome is a success. -/
def isOkE : Except String String → Bool
  | .ok _ => true
  | .error _ => false

/-- The `for (const question of enrichmentQuestions)` loop of
`processLeadEnrichment` (lines 539-567), with the network behavior of
`sendMessage` for the `i`-th question given by the oracle `answers i`
(`.ok a` — the call resolves with `a`; `.error e` — it rejects and
`toErrorString` renders the rejection as `e`).  Returns the accumulated
`enrichmentResults`, the final `chatHistory`, and the event trace.  On success
the result and both history entries are pushed and a 2000 ms delay follows
(the delay sits inside the `try`, after the pushes); on failure only the
error-placeholder result is pushed — no history entries, no delay. -/
def runQuestionsFrom (answers : Nat → Except String String) :
    Nat → List String → List EnrichmentResult × List (String × String) × List SessEvent
  | _, [] => ([], [], [])
  | i, q :: rest =>
    match answers i with
    | .ok a =>
      (⟨q, a⟩ :: (runQuestionsFrom answers (i + 1) rest).1,
       ("human", q) :: ("assistant", a) :: (runQuestionsFrom answers (i + 1) rest).2.1,
       .ask q :: .delay 2000 :: (runQuestionsFrom answers (i + 1) rest).2.2)
    | .error e =>
      (⟨q, "Error: " ++ e⟩ :: (runQuestionsFrom answers (i + 1) rest).1,
       (runQuestionsFrom answers (i + 1) rest).2.1,
       .ask q :: (runQuestionsFrom answers (i + 1) rest).2.2)

/-- Number of successful question outcomes among `n` consecutive indices
starting at `i`. -/
def okCountFrom (answers : Nat → Except String String) : Nat → Nat → Nat
  | _, 0 => 0
  | i, Nat.succ n => (if isOkE (answers i) then 1 else 0) + okCountFrom answers (i + 1) n

/-- Pacing pattern asserted by the amended pacing claim: each question is
asked, and a 2000 ms delay follows it exactly when its answer succeeded
(including after the last question); nothing follows a failed question. -/
def pacingSpec (answers : Nat → Except String String) :
    Nat → List String → List SessEvent
  | _, [] => []
  | i, q :: rest =>
    SessEvent.ask q ::
      ((match answers i with
        | .ok _ => [SessEvent.delay 2000]
        | .error _ => []) ++ pacingSpec answers (i + 1) rest)

/-- Whether two questions are issued back-to-back with no event (in
particular, no pacing delay) between them. -/
def hasAdjacentAsks : List SessEvent → Bool
  | .ask _ :: .ask _ :: _ => true
  | _ :: rest => hasAdjacentAsks rest
  | [] => false

/-- The question loop started at index 0. -/
def runQuestions (questions : List String) (answers : Nat → Except String String) :
    List EnrichmentResult × List (String × String) × List SessEvent :=
  runQuestionsFrom answers 0 questions

/-- Company/domain derivation of `processLeadEnrichment`'s
`extractCompanyInfo`: `domain = email.split('@')[1]`,
`companyName = domain.split('.')[0]`; `none` models the `TypeError` thrown by
`domain.split` when the email has no `@`. -/
def extractCompanyInfo (email : String) : Option (String × String) :=
  match splitOnCh '@' email.data with
  | _ :: d :: _ =>
    some (⟨((splitOnCh '.' d).headD [])⟩, ⟨d⟩)
  | _ => none

/-- The company name of the catch-all outcome:
`email.split('@')[1]?.split('.')[0] || 'unknown'` (an empty company name is
falsy and also yields `'unknown'`). -/
def fallbackCompany (email : String) : String :=
  match extractCompanyInfo email with
  | some (c, _) => if c = "" then "unknown" else c
  | none => "unknown"

/-- Per-lead outcome shape of `processLeadEnrichment` (absent optional
properties modelled as `none`). -/
structure LeadOutcome where
  email : String
  company : String
  chatId : String
  enrichmentData : List EnrichmentResult
  error : Option String := none
  score : Option ℚ := none
  reason : Option String := none
  structuredFields : Option (List (List Char × JsScalar)) := none
deriving DecidableEq, Repr

/-- The value returned by `processLeadEnrichment`'s outer `catch` block
(lines 596-606): error recorded, empty `chatId`, empty `enrichmentData`,
empty `structuredFields`, no `score`/`reason`. -/
def leadCatchOutcome (email : String) (err : String) : LeadOutcome :=
  { email := email
    company := fallbackCompany email
    chatId := ""
    enrichmentData := []
    error := some err
    structuredFields := some [] }

/-- `processLeadEnrichment` (lines 492-607) with its network effects given by
oracles: `answers` for the per-question `sendMessage` calls, `scorer` for the
`scoreLeadWithGemini` call and `extractor` for the
`extractCrmLeadFieldsWithLLM` call (`.error e` means the awaited call rejects
and `toErrorString` renders it as `e`); `chatId` stands for the random
20-byte hex id.  Per-question failures are absorbed inside the loop; a
rejection of the scorer or extractor (or the `TypeError` on an `@`-less
email, rendered here as a fixed sentinel) reaches the outer `catch`. -/
def processLeadEnrichment (email chatId : String)
    (answers : Nat → Except String String)
    (scorer : Except String (ℚ × String))
    (extractor : Except String (List (List Char × JsScalar))) : LeadOutcome :=
  match extractCompanyInfo email with
  | none => leadCatchOutcome email "TypeError: domain is undefined"
  | some (company, domain) =>
    let questions := generateEnrichmentQuestions company domain
    let (results, _history, _trace) := runQuestions questions answers
    match scorer with
    | .error e => leadCatchOutcome email e
    | .ok (score, reason) =>
      match extractor with
      | .error e => leadCatchOutcome email e
      | .ok fields =>
        { email := email
          company := company
          chatId := chatId
          enrichmentData := results
          score := some score
          reason := some reason
          structuredFields := some fields }

/-! ### EnrichmentOrchestrator and the route's request validation -/

/-- The email normalization of `enrichLeads` (lines 626-628):
`emails.map(e => e.trim()).filter(e => e.includes('@') && e.length > 0)` —
trim and keep `@`-containing entries; no lowercasing, no de-duplication. -/
def enrichLeadsValidEmails (emails : List String) : List String :=
  (emails.map (fun e => (⟨jsTrim e.data⟩ : String))).filter
    (fun e => e.data.contains '@' && decide (0 < e.length))

/-- The per-email loop of `enrichLeads` once provider configuration has
succeeded: one `processLeadEnrichment` call per valid email, in order, each
appended to `results`; `proc` abstracts the per-lead network behavior.  When
provider configuration fails, the loop is never entered and `results` stays
empty. -/
def enrichLeadsResults (emails : List String) (proc : String → LeadOutcome)
    (configOk : Bool) : List LeadOutcome :=
  if configOk then (enrichLeadsValidEmails emails).map proc else []

/-- De-duplication by `Array.from(new Set(...))`: first occurrences survive,
in first-occurrence order. -/
def dedupFirst : List String → List String
  | [] => []
  | x :: rest => x :: (dedupFirst rest).filter (fun y => y != x)

/-- Lowercasing of a character list (`String.prototype.toLowerCase` on the
ASCII range). -/
def toLowerL (l : List Char) : List Char := l.map Char.toLower

/-- The email normalization of the route's `validateRequest`
(route.ts lines 52-60): keep strings, `trim().toLowerCase()`, drop empties
(`filter(Boolean)`), de-duplicate via `Set`. -/
def vrNormalizedEmails (emails : List String) : List String :=
  dedupFirst ((emails.map (fun e => (⟨toLowerL (jsTrim e.data)⟩ : String))).filter
    (fun e => !e.data.isEmpty))

/-- Test of the route's `emailRegex = /^[^\s@]+@[^\s@]+\.[^\s@]+$/`: exactly
one `@` (so the split has exactly two parts, neither containing `@`), no
whitespace anywhere, a non-empty local part, and a `.` in the domain with
non-empty character runs on both sides (i.e. an interior dot). -/
def emailRegexTest (s : String) : Bool :=
  match splitOnCh '@' s.data with
  | [lp, dom] =>
    !lp.isEmpty && lp.all (fun c => !jsWhitespaceB c) &&
      dom.all (fun c => !jsWhitespaceB c) && ((dom.drop 1).dropLast.contains '.')
  | _ => false

/-- The invalid-email list computed by `validateRequest` (route.ts lines
71-72); the request is rejected with a 400 exactly when it is non-empty. -/
def vrInvalidEmails (emails : List String) : List String :=
  (vrNormalizedEmails emails).filter (fun e => !emailRegexTest e)

end LeadEnrichment

namespace LeadEnrichment

/-! ### Helper lemmas about the question loop -/

/-- The questions of the accumulated results are exactly the planned questions,
in order: no question is omitted, failed or not. -/
theorem runQuestionsFrom_results_questions (answers : Nat → Except String String)
    (qs : List String) : ∀ i : Nat,
    ((runQuestionsFrom answers i qs).1.map (fun r => r.question)) = qs := by
  induction qs with
  | nil => intro i; rfl
  | cons q rest ih =>
    intro i
    cases h : answers i with
    | ok a => simp [runQuestionsFrom, h, ih]
    | error e => simp [runQuestionsFrom, h, ih]

/-- One result per question, failed or not. -/
theorem runQuestionsFrom_results_length (answers : Nat → Except String String)
    (qs : List String) (i : Nat) :
    (runQuestionsFrom answers i qs).1.length = qs.length := by
  have h := runQuestionsFrom_results_questions answers qs i
  calc (runQuestionsFrom answers i qs).1.length
      = ((runQuestionsFrom answers i qs).1.map (fun r => r.question)).length :=
        (List.length_map _ _).symm
    _ = qs.length := by rw [h]

/-- History grows by two entries per successful question and by none per
failed question. -/
theorem runQuestionsFrom_history_length (answers : Nat → Except String String)
    (qs : List String) : ∀ i : Nat,
    (runQuestionsFrom answers i qs).2.1.length = 2 * okCountFrom answers i qs.length := by
  induction qs with
  | nil => intro i; rfl
  | cons q rest ih =>
    intro i
    cases h : answers i with
    | ok a =>
      simp [runQuestionsFrom, h, ih, okCountFrom, isOkE, List.length_cons]
      ring
    | error e =>
      simp [runQuestionsFrom, h, ih, okCountFrom, isOkE]

/-- The event trace of the loop is exactly the pacing pattern: every question
is asked and a 2000 ms delay follows exactly the successful ones. -/
theorem runQuestionsFrom_trace (answers : Nat → Except String String)
    (qs : List String) : ∀ i : Nat,
    (runQuestionsFrom answers i qs).2.2 = pacingSpec answers i qs := by
  induction qs with
  | nil => intro i; rfl
  | cons q rest ih =>
    intro i
    cases h : answers i with
    | ok a => simp [runQuestionsFrom, pacingSpec, h, ih]
    | error e => simp [runQuestionsFrom, pacingSpec, h, ih]

end LeadEnrichment

namespace LeadEnrichment

/-! ### Claim theorems -/

/-- C1: the claim says a delivered `{"type":"error","data":"boom"}` record
makes `sendMessage` fail with an error carrying `"boom"`.  In the code the
`throw new Error(data.data)` sits inside the same `try` whose `catch` absorbs
every exception as "incomplete JSON", so nothing propagates: the modelled
call consumes the error record, keeps reading, and at end of stream returns
the accumulated (empty) answer normally — `sendMessageStream` is a total
function into strings, and on this stream it evaluates to `""`. -/
theorem sendMessage_error_record_returns_normally :
    sendMessageStream [("\x7b\"type\":\"error\",\"data\":\"boom\"\x7d\n").data] = "".data := by
  decide

/-- C2: the claim says every chunk division of the
`message "Hel" / message "lo" / messageEnd` stream yields exactly `"Hello"`.
The division aligned with record boundaries does, but a division that splits
the second record leaves the buffer uncleared after the parse failure, so the
already-processed `"Hel"` fragment is appended a second time on the next
chunk and the call returns `"HelHello"`. -/
theorem sendMessage_fragmented_chunks_double_append :
    sendMessageStream
      [("\x7b\"type\":\"message\",\"data\":\"Hel\"\x7d\n\x7b\"type\":\"message\",\"data\":\"lo\"\x7d\n\x7b\"type\":\"messageEnd\"\x7d\n").data]
      = "Hello".data ∧
    sendMessageStream
      [("\x7b\"type\":\"message\",\"data\":\"Hel\"\x7d\n\x7b\"type\":\"mess").data,
       ("age\",\"data\":\"lo\"\x7d\n\x7b\"type\":\"messageEnd\"\x7d\n").data]
      = "HelHello".data ∧
    "HelHello".data ≠ "Hello".data := by
  refine ⟨by decide, by decide, by decide⟩

/-- C3 counterexample: for a single question whose `sendMessage` call fails,
the loop records the error-placeholder result but appends nothing to the
conversation history — the history does not grow by two entries as claimed. -/
theorem history_unchanged_on_failed_question_cex :
    (runQuestions ["q"] (fun _ => Except.error "boom")).1
      = [⟨"q", "Error: boom"⟩] ∧
    (runQuestions ["q"] (fun _ => Except.error "boom")).2.1.length = 0 ∧
    (runQuestions ["q"] (fun _ => Except.error "boom")).2.1.length ≠ 2 := by
  refine ⟨by decide, by decide, by decide⟩

/-- C3 (amended): the conversation history grows by exactly two entries (the
question and the answer) per successfully processed question only; a failed
question still contributes its error-placeholder result, but nothing is
appended to the history. -/
theorem history_grows_two_per_successful_question
    (questions : List String) (answers : Nat → Except String String) :
    (runQuestions questions answers).2.1.length
      = 2 * okCountFrom answers 0 questions.length ∧
    (runQuestions questions answers).1.length = questions.length :=
  ⟨runQuestionsFrom_history_length answers questions 0,
   runQuestionsFrom_results_length answers questions 0⟩

/-- C4: when per-lead processing runs to completion (the scoring and
field-extraction calls resolve), the outcome's `enrichmentData` carries
exactly one entry per planned question, in order — failed questions
contribute their entry instead of being omitted — and the question count is
11. -/
theorem enrichment_result_count_invariant (email chatId c d : String)
    (answers : Nat → Except String String) (sr : ℚ × String)
    (fields : List (List Char × JsScalar))
    (h : extractCompanyInfo email = some (c, d)) :
    ((processLeadEnrichment email chatId answers (.ok sr) (.ok fields)).enrichmentData.map
        (fun r => r.question)) = generateEnrichmentQuestions c d ∧
    (processLeadEnrichment email chatId answers (.ok sr) (.ok fields)).enrichmentData.length
      = (generateEnrichmentQuestions c d).length ∧
    (generateEnrichmentQuestions c d).length = 11 := by
  obtain ⟨s, r⟩ := sr
  refine ⟨?_, ?_, by simp [generateEnrichmentQuestions]⟩
  · simp only [processLeadEnrichment, h, runQuestions]
    exact runQuestionsFrom_results_questions answers (generateEnrichmentQuestions c d) 0
  · simp only [processLeadEnrichment, h, runQuestions]
    exact runQuestionsFrom_results_length answers (generateEnrichmentQuestions c d) 0

/-- Witness for C4 at a concrete lead whose every question fails. -/
theorem enrichment_result_count_invariant_witness :
    extractCompanyInfo "a@b.com" = some ("b", "b.com") ∧
    (((processLeadEnrichment "a@b.com" "cid" (fun _ => Except.error "down")
          (.ok (0, "r")) (.ok [])).enrichmentData.map (fun r => r.question))
        = generateEnrichmentQuestions "b" "b.com" ∧
      (processLeadEnrichment "a@b.com" "cid" (fun _ => Except.error "down")
          (.ok (0, "r")) (.ok [])).enrichmentData.length
        = (generateEnrichmentQuestions "b" "b.com").length ∧
      (generateEnrichmentQuestions "b" "b.com").length = 11) :=
  ⟨by decide,
   enrichment_result_count_invariant "a@b.com" "cid" "b" "b.com"
     (fun _ => Except.error "down") (0, "r") [] (by decide)⟩

/-- C5 counterexample: `enrichLeads` on `[" A@b.com ", "bad-email", "a@b.com"]`
keeps two emails, not the claimed de-duplicated singleton `{"a@b.com"}` — it
trims and filters on `@` but neither lowercases nor de-duplicates. -/
theorem enrichLeads_normalization_cex :
    (enrichLeadsValidEmails [" A@b.com ", "bad-email", "a@b.com"]).length = 2 ∧
    enrichLeadsValidEmails [" A@b.com ", "bad-email", "a@b.com"] ≠ ["a@b.com"] := by
  refine ⟨by decide, by decide⟩

/-- C5 (amended): `enrichLeads` normalizes the batch only by trimming and
keeping `@`-containing entries, yielding `["A@b.com", "a@b.com"]` and
processing exactly two leads.  Lowercasing and `Set` de-duplication happen in
the route's `validateRequest`, which turns this input into
`["a@b.com", "bad-email"]` and then rejects the whole request because
`"bad-email"` fails its email-format regex. -/
theorem enrichLeads_route_normalization (proc : String → LeadOutcome) :
    enrichLeadsValidEmails [" A@b.com ", "bad-email", "a@b.com"]
      = ["A@b.com", "a@b.com"] ∧
    (enrichLeadsResults [" A@b.com ", "bad-email", "a@b.com"] proc true).length = 2 ∧
    vrNormalizedEmails [" A@b.com ", "bad-email", "a@b.com"]
      = ["a@b.com", "bad-email"] ∧
    vrInvalidEmails [" A@b.com ", "bad-email", "a@b.com"] = ["bad-email"] := by
  refine ⟨by decide, ?_, by decide, by decide⟩
  show (List.map proc (enrichLeadsValidEmails _)).length = 2
  rw [List.length_map]
  decide

/-- C6 counterexample: when the first of two questions fails, the event trace
is `ask q1, ask q2, delay 2000` — the two questions are issued back-to-back
with no pacing delay between them, contradicting the claimed unconditional
2-second delay between consecutive questions. -/
theorem pacing_delay_skipped_on_failure_cex :
    (runQuestions ["q1", "q2"]
        (fun i => if i = 0 then Except.error "boom" else Except.ok "fine")).2.2
      = [.ask "q1", .ask "q2", .delay 2000] ∧
    hasAdjacentAsks
      ((runQuestions ["q1", "q2"]
          (fun i => if i = 0 then Except.error "boom" else Except.ok "fine")).2.2)
      = true := by
  refine ⟨by decide, by decide⟩

/-- C6 (amended): the 2000 ms pacing delay follows each successfully answered
question (including the last one); no delay follows a failed question, since
the `setTimeout` sits inside the `try` block after the successful pushes. -/
theorem pacing_delay_follows_success_only
    (questions : List String) (answers : Nat → Except String String) :
    (runQuestions questions answers).2.2 = pacingSpec answers 0 questions :=
  runQuestionsFrom_trace answers questions 0

/-- C7 counterexample: the parse does not clamp the extracted number to the
rubric's 0–90 range — a response containing `Total Score: 123/90` produces a
score of 123. -/
theorem score_exceeds_rubric_range_cex :
    parsedScore ("Total Score: 123/90\nReason: x").data = 123 ∧
    ¬ parsedScore ("Total Score: 123/90\nReason: x").data ≤ 90 := by
  refine ⟨by decide, by decide⟩

/-- C7 (amended): the score is always a nonnegative number (0 when no
`Total Score:` match exists); the 0–90 range is only requested of the model in
the prompt, not enforced by the parse. -/
theorem score_is_nonneg (text : List Char) : 0 ≤ parsedScore text := by
  unfold parsedScore
  rcases scanTotalScore text with _ | ⟨ds, fs⟩
  · norm_num
  · dsimp only
    split
    · positivity
    · positivity

/-- C8: the parse of `scoreLeadWithGemini` is a total function (never throws):
when neither the `Total Score:` pattern nor the `Revenue Score:...Reason:`
pattern matches, it returns score 0 with reason `"N/A"`; and on
`"Total Score: 73/90\nReason: strong revenue"` the score is 73. -/
theorem scoreParse_default_and_seventy_three (text : List Char)
    (h1 : scanTotalScore text = none) (h2 : hasFullReason text = false) :
    scoreLeadParse text = (0, "N/A".data) ∧
    (scoreLeadParse ("Total Score: 73/90\nReason: strong revenue").data).1 = 73 := by
  refine ⟨?_, by decide⟩
  simp [scoreLeadParse, parsedScore, h1, h2]

/-- Witness for C8 on a response with no recognizable rubric output. -/
theorem scoreParse_default_and_seventy_three_witness :
    scanTotalScore ("no rubric output here").data = none ∧
    hasFullReason ("no rubric output here").data = false ∧
    (scoreLeadParse ("no rubric output here").data = (0, "N/A".data) ∧
      (scoreLeadParse ("Total Score: 73/90\nReason: strong revenue").data).1 = 73) :=
  ⟨by decide, by decide,
   scoreParse_default_and_seventy_three ("no rubric output here").data (by decide) (by decide)⟩

/-- C9: the parse of `extractCrmLeadFieldsWithLLM` is a total function (never
throws past its boundary): with no brace-delimited substring it returns the
empty mapping, and on
`"noise {\"City\":\"Austin\",\"Country\":null} trailing"` it parses the first
non-greedy brace match as JSON, yielding `City ↦ "Austin", Country ↦ null`. -/
theorem crmExtract_default_and_austin (text : List Char)
    (h : firstBraceSub text = none) :
    extractCrmFields text = [] ∧
    extractCrmFields ("noise \x7b\"City\":\"Austin\",\"Country\":null\x7d trailing").data
      = [("City".data, .str "Austin".data), ("Country".data, .null)] := by
  refine ⟨?_, by decide⟩
  simp [extractCrmFields, h]

/-- Witness for C9 on a response without any `{...}` substring. -/
theorem crmExtract_default_and_austin_witness :
    firstBraceSub ("no braces at all").data = none ∧
    (extractCrmFields ("no braces at all").data = [] ∧
      extractCrmFields ("noise \x7b\"City\":\"Austin\",\"Country\":null\x7d trailing").data
        = [("City".data, .str "Austin".data), ("Country".data, .null)]) :=
  ⟨by decide, crmExtract_default_and_austin ("no braces at all").data (by decide)⟩

/-- C10: if the scoring call (or, after it succeeds, the field-extraction
call) rejects, `processLeadEnrichment` returns the catch-block outcome: the
error string is recorded, `enrichmentData` is empty (the collected Q&A pairs
are discarded), `chatId` is the empty string, `score` and `reason` are absent
and `structuredFields` is the empty object — whatever the per-question
outcomes were. -/
theorem lead_catch_outcome_shape (email chatId c d : String)
    (answers : Nat → Except String String) (e : String) (sr : ℚ × String)
    (extractor : Except String (List (List Char × JsScalar)))
    (h : extractCompanyInfo email = some (c, d)) :
    processLeadEnrichment email chatId answers (.error e) extractor
      = leadCatchOutcome email e ∧
    processLeadEnrichment email chatId answers (.ok sr) (.error e)
      = leadCatchOutcome email e ∧
    (leadCatchOutcome email e).enrichmentData = [] ∧
    (leadCatchOutcome email e).chatId = "" ∧
    (leadCatchOutcome email e).error = some e ∧
    (leadCatchOutcome email e).score = none ∧
    (leadCatchOutcome email e).reason = none ∧
    (leadCatchOutcome email e).structuredFields = some [] := by
  obtain ⟨s, r⟩ := sr
  exact ⟨by simp [processLeadEnrichment, h], by simp [processLeadEnrichment, h],
    rfl, rfl, rfl, rfl, rfl, rfl⟩

/-- Witness for C10 at a concrete lead whose scoring call rejects. -/
theorem lead_catch_outcome_shape_witness :
    extractCompanyInfo "a@b.com" = some ("b", "b.com") ∧
    (processLeadEnrichment "a@b.com" "cid" (fun _ => Except.ok "fine")
        (.error "503") (.ok []) = leadCatchOutcome "a@b.com" "503" ∧
      processLeadEnrichment "a@b.com" "cid" (fun _ => Except.ok "fine")
        (.ok (0, "r")) (.error "503") = leadCatchOutcome "a@b.com" "503" ∧
      (leadCatchOutcome "a@b.com" "503").enrichmentData = [] ∧
      (leadCatchOutcome "a@b.com" "503").chatId = "" ∧
      (leadCatchOutcome "a@b.com" "503").error = some "503" ∧
      (leadCatchOutcome "a@b.com" "503").score = none ∧
      (leadCatchOutcome "a@b.com" "503").reason = none ∧
      (leadCatchOutcome "a@b.com" "503").structuredFields = some []) :=
  ⟨by decide,
   lead_catch_outcome_shape "a@b.com" "cid" "b" "b.com" (fun _ => Except.ok "fine")
     "503" (0, "r") (.ok []) (by decide)⟩

end LeadEnrichment
